import Mathlib

/-!
Verification of the json-validate schema-matching engine (src/validate.ts).

The engine is embedded shallowly: JavaScript values decoded from JSON are
modelled by `JSValue`, schemas by the tagged union `Schema` (the runtime
shape dispatch of `validate2` becomes constructor dispatch), and the
mutable, insertion-ordered error object by an association list threaded
through the recursion.  Code paths that `throw` are modelled with
`Except String`.  In this closed JSON data model the structural
"plainness" checks of the source (no accessor properties, no symbol keys,
fully enumerable) hold by construction, so `plain_array`/`is_plain_object`
on representable values are identically true and exotic, non-schema
shapes are collapsed into the `Schema.other` constructor on which
`validate2` raises, exactly as the source falls through to its final
`throw`.
-/

namespace JsonValidate

/-- A JavaScript number: NaN, the two infinities, or a finite value.
Finite doubles are embedded into `ℚ`; every concrete number appearing in
the development is exactly representable as a double. -/
inductive JSNum where
  | nan
  | posInf
  | negInf
  | finite (q : ℚ)
deriving DecidableEq

/-- A JavaScript value as produced by decoding JSON, plus `undefined`,
which the source explicitly tests for on object properties. -/
inductive JSValue where
  | undef
  | null
  | bool (b : Bool)
  | num (n : JSNum)
  | str (s : String)
  | arr (elems : List JSValue)
  | obj (props : List (String × JSValue))

/-- `boolean(v)` from the source: `typeof v === 'boolean'`. -/
def boolean : JSValue → Bool
  | .bool _ => true
  | _ => false

/-- `number(v)` from the source: `Number.isFinite(v)`. -/
def number : JSValue → Bool
  | .num (.finite _) => true
  | _ => false

/-- `integer(v)` from the source: `Number.isInteger(v)` — true exactly for
finite numbers whose value is a mathematical integer. -/
def integer : JSValue → Bool
  | .num (.finite q) => q.den == 1
  | _ => false

/-- `string(v)` from the source: `typeof v === 'string'`. -/
def string : JSValue → Bool
  | .str _ => true
  | _ => false

/-- `array(v)` from the source (every representable array is plain). -/
def array : JSValue → Bool
  | .arr _ => true
  | _ => false

/-- `is_object(v)` from the source: a non-null object with prototype
`Object.prototype` — i.e. exactly the `obj` constructor here. -/
def is_object : JSValue → Bool
  | .obj _ => true
  | _ => false

/-- The literal schemas admitted by the dispatch test
`schema === null || string(schema) || number(schema) || boolean(schema)`;
note `number` means *finite*, so a NaN or infinite number is not a
literal schema (it falls through to the invalid-schema throw). -/
inductive SLit where
  | null
  | str (s : String)
  | num (q : ℚ)
  | bool (b : Bool)
deriving DecidableEq

/-- Strict equality `value === schema` between a value and a literal. -/
def litMatches : SLit → JSValue → Bool
  | .null, .null => true
  | .str s, .str t => s == t
  | .num q, .num (.finite r) => q == r
  | .bool b, .bool c => b == c
  | _, _ => false

/-- The error accumulator: a JavaScript object keyed by paths.  Paths
always start with `.` or `[` or are empty, hence are never array-index
keys, so the JS enumeration order is insertion order: an association
list with in-place overwrite models it exactly. -/
abbrev ErrorMap := List (String × String)

/-- `errors[path] = msg`: overwrite in place if the key exists, else
append. -/
def setKey (m : ErrorMap) (k msg : String) : ErrorMap :=
  if m.any (fun p => p.1 == k) then
    m.map (fun p => if p.1 == k then (k, msg) else p)
  else
    m ++ [(k, msg)]

/-- Whether the error object has an own property `k`. -/
def hasKey (m : ErrorMap) (k : String) : Bool :=
  m.any (fun p => p.1 == k)

/-- `o.hasOwnProperty(k)` for a property list. -/
def hasProp {α : Type} (l : List (String × α)) (k : String) : Bool :=
  l.any (fun p => p.1 == k)

/-- `o[k]` for a property list. -/
def lookupProp {α : Type} (l : List (String × α)) (k : String) : Option α :=
  l.lookup k

/-- What a validator function may return (`ValidatorResult` in the
source): a boolean, a string, an error object, or — since the source
type is not enforced at runtime — anything else, on which
`merge_result` raises. -/
inductive ValidatorResult where
  | bool (b : Bool)
  | str (s : String)
  | errs (m : ErrorMap)
  | other
deriving DecidableEq

/-- A schema, discriminated by runtime shape exactly as `validate2`
dispatches: a callable, a RegExp (modelled by its `search`-hit
predicate on strings), a literal, a plain array by example, a plain
object by example, or any other shape (on which `validate2` raises). -/
inductive Schema where
  | func (f : JSValue → Except String ValidatorResult)
  | regex (test : String → Bool)
  | lit (l : SLit)
  | arrEx (elems : List Schema)
  | objEx (props : List (String × Schema))
  | other

/-- `process.env.NODE_ENV === 'development'`; fixed to the production
setting, under which every engine-generated message is `''`. -/
def DEBUG : Bool := false

/-- A debug-mode message, blanked out in production. -/
def debugMsg (s : String) : String := if DEBUG then s else ""

/-- `merge_result(errors, path, result)` from the source. -/
def merge_result (errors : ErrorMap) (path : String) (result : ValidatorResult) :
    Except String ErrorMap :=
  match result with
  | .bool true => pure errors
  | .bool false => pure (setKey errors path "")
  | .str s => pure (setKey errors path s)
  | .errs m => pure (m.foldl (fun acc p => setKey acc (path ++ p.1) p.2) errors)
  | .other => throw "Invalid schema result encountered"

/-- `Number.MAX_SAFE_INTEGER`. -/
def MAX_SAFE_INTEGER : ℚ := 9007199254740991

/-- Extraction of an array schema bound (`schema[1]` / `schema[2]`): the
entry must be absent (default applies) or a non-negative integer number,
else the source raises.  The message text follows the source, which
says `array[0]` for both bounds. -/
def getBound (path : String) (s : Option Schema) (dflt : ℚ) : Except String ℚ :=
  match s with
  | none => pure dflt
  | some (.lit (.num q)) =>
      if q.den = 1 ∧ ¬q < 0 then pure q
      else throw ("Invalid schema at path " ++ path ++ ": array[0] must be a non-negative integer")
  | some _ =>
      throw ("Invalid schema at path " ++ path ++ ": array[0] must be a non-negative integer")

mutual

/-- `validate2(schema, value, path, errors)` from the source, with the
threaded error object made explicit: returns the updated accumulator, or
raises on an invalid schema. -/
def validate2 : Schema → JSValue → String → ErrorMap → Except String ErrorMap
  | .func f, v, path, errors => do
      let res ← f v
      merge_result errors path res
  | .regex test, v, path, errors =>
      match v with
      | .str s =>
          if test s then pure errors
          else pure (setKey errors path (debugMsg "String value does not match regexp"))
      | _ => pure (setKey errors path (debugMsg "Expected string"))
  | .lit l, v, path, errors =>
      if litMatches l v then pure errors
      else pure (setKey errors path (debugMsg "Expected literal"))
  | .arrEx elems, v, path, errors =>
      match v with
      | .arr vs =>
          match elems with
          | [] => throw ("Invalid schema at path " ++ path ++ ": arrays must be of length 1 to 3")
          | e :: rest =>
              if rest.length > 2 then
                throw ("Invalid schema at path " ++ path ++ ": arrays must be of length 1 to 3")
              else do
                let mn ← getBound path rest[0]? 0
                let mx ← getBound path rest[1]? MAX_SAFE_INTEGER
                let errors :=
                  if (vs.length : ℚ) < mn ∨ (vs.length : ℚ) > mx then
                    setKey errors path (debugMsg "Array not of expected length")
                  else errors
                validateElems e vs path 0 errors
      | _ => pure (setKey errors path (debugMsg "Expected array"))
  | .objEx props, v, path, errors =>
      match v with
      | .obj vprops =>
          match vprops.find? (fun p => !hasProp props p.1) with
          | some p => pure (setKey errors path (debugMsg ("Unexpected property: " ++ p.1)))
          | none => validateProps props vprops path errors
      | _ => pure (setKey errors path (debugMsg "Expected object"))
  | .other, _, path, _ => throw ("Invalid schema at path " ++ path)
termination_by s _ _ _ => (sizeOf s, 0, 0)


/-- The element loop of the array-by-example branch:
`for (i...) validate2(schema[0], value[i], path[i], errors)`. -/
def validateElems (e : Schema) : List JSValue → String → Nat → ErrorMap → Except String ErrorMap
  | [], _, _, errors => pure errors
  | v :: vs, path, i, errors => do
      let errors ← validate2 e v (path ++ "[" ++ toString i ++ "]") errors
      validateElems e vs path (i + 1) errors
termination_by vs _ _ _ => (sizeOf e, 1, vs.length)


/-- The second pass of the object-by-example branch: every declared
property is either reported missing (absent or `undefined`) or recursed
into at `path + "." + prop`. -/
def validateProps : List (String × Schema) → List (String × JSValue) → String → ErrorMap →
    Except String ErrorMap
  | [], _, _, errors => pure errors
  | (prop, sub) :: sprops, vprops, path, errors =>
      let subpath := path ++ "." ++ prop
      match lookupProp vprops prop with
      | none => validateProps sprops vprops path (setKey errors subpath (debugMsg "Missing property"))
      | some .undef => validateProps sprops vprops path (setKey errors subpath (debugMsg "Missing property"))
      | some w => do
          let errors ← validate2 sub w subpath errors
          validateProps sprops vprops path errors
termination_by sprops _ _ _ => (sizeOf sprops, 0, 0)


end

/-- `object_has_a_property(o)`: whether the error object has any entry. -/
def object_has_a_property (m : ErrorMap) : Bool := !m.isEmpty

/-- The outcome of the public entry point: `true`, or the error object. -/
inductive VOut where
  | success
  | failure (m : ErrorMap)
deriving DecidableEq

/-- `validateJSON(schema, value)` from the source: run the engine on a
fresh accumulator and collapse "no entries" to `true`. -/
def validateJSON (schema : Schema) (value : JSValue) : Except String VOut := do
  let errors ← validate2 schema value "" []
  if object_has_a_property errors then
    return .failure errors
  return .success

/-- The exported predicate `string` used as a schema node: called by the
engine, it returns its boolean verdict. -/
def stringSchema : Schema := .func (fun v => pure (.bool (string v)))

/-- The exported predicate `number` used as a schema node. -/
def numberSchema : Schema := .func (fun v => pure (.bool (number v)))

/-- The exported predicate `integer` used as a schema node. -/
def integerSchema : Schema := .func (fun v => pure (.bool (integer v)))

/-- The key-checking first loop of `map`: abort (returning `false`) at
the first key for which a full top-level validation of the key schema
against the key string is not `true`. -/
def mapCheckKeys (key_schema : Schema) : List String → Except String Bool
  | [] => pure true
  | k :: rest => do
      match ← validateJSON key_schema (.str k) with
      | .success => mapCheckKeys key_schema rest
      | .failure _ => pure false

/-- The value-checking second loop of `map`: validate every value at
`"." + key`, counting entries. -/
def mapValues (value_schema : Schema) :
    List (String × JSValue) → ErrorMap → Nat → Except String (ErrorMap × Nat)
  | [], errors, entries => pure (errors, entries)
  | (k, v) :: rest, errors, entries => do
      let errors ← validate2 value_schema v ("." ++ k) errors
      mapValues value_schema rest errors (entries + 1)

/-- The validator returned by `map(key_schema, value_schema,
min_entries, max_entries)`.  The source defaults are `0` and
`MAX_SAFE_INTEGER`; they are passed explicitly here. -/
def map (key_schema value_schema : Schema) (min_entries max_entries : ℚ) :
    JSValue → Except String ValidatorResult :=
  fun value =>
    match value with
    | .obj props => do
        let keysOk ← mapCheckKeys key_schema (props.map Prod.fst)
        if keysOk then do
          let (errors, entries) ← mapValues value_schema props [] 0
          let errors :=
            if (entries : ℚ) < min_entries then
              setKey errors "" (debugMsg "Not enough entries in the map")
            else errors
          let errors :=
            if (entries : ℚ) > max_entries then
              setKey errors "" (debugMsg "Too many entries in the map")
            else errors
          pure (.errs errors)
        else
          pure (.str (debugMsg "Unexpected property"))
    | _ => pure (.str (debugMsg "Map is not an object"))

/-- The loop inside the validator returned by `and`: validate against
each schema in order via the top-level entry point, returning the first
non-`true` result verbatim. -/
def andRun : List Schema → JSValue → Except String ValidatorResult
  | [], _ => pure (.bool true)
  | s :: rest, v => do
      match ← validateJSON s v with
      | .success => andRun rest v
      | .failure m => pure (.errs m)

/-- `and(...schemata)`: raises at construction time on an empty list,
else returns the short-circuiting conjunction validator. -/
def and (schemata : List Schema) : Except String (JSValue → Except String ValidatorResult) :=
  if schemata.length < 1 then
    throw "Invalid schema: and needs at least one schema"
  else
    pure (fun v => andRun schemata v)

/-- The required-properties loop of the `object` combinator: a required
property that is absent, or present with value `undefined`, is reported
missing at `"." + prop` without recursing; any other value is validated
against the sub-schema. -/
def objReq : List (String × Schema) → List (String × JSValue) → ErrorMap →
    Except String ErrorMap
  | [], _, errors => pure errors
  | (prop, sub) :: rest, vprops, errors =>
      match lookupProp vprops prop with
      | none => objReq rest vprops (setKey errors ("." ++ prop) (debugMsg ("Missing property " ++ prop)))
      | some .undef => objReq rest vprops (setKey errors ("." ++ prop) (debugMsg ("Missing property " ++ prop)))
      | some w => do
          let errors ← validate2 sub w ("." ++ prop) errors
          objReq rest vprops errors

/-- The optional-properties loop of the `object` combinator: only
absence (`!value.hasOwnProperty(prop)`) skips a property; a property
present with value `undefined` is counted and validated. -/
def objOpt : List (String × Schema) → List (String × JSValue) → ErrorMap → Nat →
    Except String (ErrorMap × Nat)
  | [], _, errors, count => pure (errors, count)
  | (prop, sub) :: rest, vprops, errors, count =>
      match lookupProp vprops prop with
      | none => objOpt rest vprops errors count
      | some w => do
          let errors ← validate2 sub w ("." ++ prop) errors
          objOpt rest vprops errors (count + 1)

/-- The closure returned by the `object` combinator.  The
optional-properties argument is kept as an `Option` so that the
closure's own `optional_properties === null` test is represented; the
loop over a null optional map iterates zero times, as `for...in null`
does. -/
def objectClosure (req : List (String × Schema)) (opt : Option (List (String × Schema)))
    (minOpt maxOpt : ℚ) : JSValue → Except String ValidatorResult :=
  fun value =>
    match value with
    | .obj vprops =>
        match vprops.find? (fun p =>
            !hasProp req p.1 && (opt.isNone || !hasProp (opt.getD []) p.1)) with
        | some p => pure (.str (debugMsg ("Unexpected property: " ++ p.1)))
        | none => do
            let errors ← objReq req vprops []
            let (errors, count) ← objOpt (opt.getD []) vprops errors 0
            let errors :=
              if (count : ℚ) < minOpt ∨ (count : ℚ) > maxOpt then
                setKey errors "" (debugMsg "Wrong number of optional properties")
              else errors
            pure (.errs errors)
    | _ => pure (.str (debugMsg "Expected object"))

/-- The second argument of a multi-argument `object`/`plain_object`
call: omitted or `undefined` (the destructuring default `null`
applies), literally `null`, or a plain property mapping. -/
inductive OptionalArg where
  | undef
  | null
  | props (l : List (String × Schema))

/-- The destructuring default `optional_properties = null`: an omitted
or `undefined` argument becomes `null`. -/
def normalizeOptArg : OptionalArg → Option (List (String × Schema))
  | .undef => none
  | .null => none
  | .props l => some l

/-- `object(required, optional, minOpt, maxOpt)` with two or more
arguments: construction-time checks, then the validator closure.
`is_plain_object(null)` is false, so a null (or defaulted) optional
mapping raises `Invalid schema` before any closure is created. -/
def object_build (req : List (String × Schema)) (optArg : OptionalArg)
    (minOpt maxOpt : ℚ) : Except String (JSValue → Except String ValidatorResult) :=
  match normalizeOptArg optArg with
  | none => throw "Invalid schema"
  | some optProps =>
      match req.find? (fun p => hasProp optProps p.1) with
      | some p =>
          throw ("Invalid schema: property " ++ p.1 ++ " must not be both required and optional")
      | none => pure (objectClosure req (some optProps) minOpt maxOpt)

/-- `plain_object(...)` with two or more arguments: delegates
construction to `object` and wraps the closure with a plainness check
on the value (which, in this model, is the `obj` shape check). -/
def plain_object_build (req : List (String × Schema)) (optArg : OptionalArg)
    (minOpt maxOpt : ℚ) : Except String (JSValue → Except String ValidatorResult) := do
  let schema ← object_build req optArg minOpt maxOpt
  pure (fun value =>
    match value with
    | .obj _ => schema value
    | _ => pure (.str (debugMsg "Expected plain object")))

/-! ### Helper lemmas about the error accumulator -/

/-- Rewriting a key in place never changes the key set of the
accumulator: `setKey` either overwrites or appends. -/
theorem any_map_keyfix (m : ErrorMap) (k msg k' : String) :
    ((m.map fun p => if p.1 == k then (k, msg) else p).any fun p => p.1 == k') =
      (m.any fun p => p.1 == k') := by
  induction m with
  | nil => rfl
  | cons p rest ih =>
      simp only [List.map_cons, List.any_cons, ih]
      by_cases hp : (p.1 == k) = true
      · have hpe : p.1 = k := eq_of_beq hp
        simp [hpe]
      · simp [hp]

/-- The key set after `setKey` is the old key set plus the written key. -/
theorem hasKey_setKey (m : ErrorMap) (k msg k' : String) :
    hasKey (setKey m k msg) k' = (hasKey m k' || k == k') := by
  unfold setKey hasKey
  by_cases hc : (m.any fun p => p.1 == k) = true
  · rw [if_pos hc, any_map_keyfix]
    by_cases hk : (k == k') = true
    · rw [← eq_of_beq hk, hc]
      simp
    · simp [hk]
  · rw [if_neg hc]
    simp

/-- Folding `setKey` over a sub-result, as the `ErrorMap` branch of
`merge_result` does, preserves existing keys. -/
theorem hasKey_foldl_setKey (m : List (String × String)) (path : String)
    (acc : ErrorMap) (k : String) (h : hasKey acc k = true) :
    hasKey (m.foldl (fun acc p => setKey acc (path ++ p.1) p.2) acc) k = true := by
  induction m generalizing acc with
  | nil => exact h
  | cons p rest ih =>
      exact ih _ (by rw [hasKey_setKey, h]; rfl)

/-- `merge_result` only adds or overwrites entries: every key present
before the merge is present after it. -/
theorem merge_result_mono (errors : ErrorMap) (path : String) (r : ValidatorResult)
    (e' : ErrorMap) (h : merge_result errors path r = .ok e') (k : String)
    (hk : hasKey errors k = true) : hasKey e' k = true := by
  match r with
  | .bool true =>
      simp only [merge_result] at h
      cases h
      exact hk
  | .bool false =>
      simp only [merge_result, pure, Except.pure, Except.ok.injEq] at h
      rw [← h, hasKey_setKey, hk]
      rfl
  | .str s =>
      simp only [merge_result, pure, Except.pure, Except.ok.injEq] at h
      rw [← h, hasKey_setKey, hk]
      rfl
  | .errs m =>
      simp only [merge_result, pure, Except.pure, Except.ok.injEq] at h
      rw [← h]
      exact hasKey_foldl_setKey m path errors k hk
  | .other =>
      simp only [merge_result] at h
      exact Except.noConfusion h

/-- The accumulator grows monotonically through the whole engine: for
each of the three mutually recursive loops, a successful run preserves
every key already present in the incoming error object. -/
theorem validate2_mono :
    (∀ s v path errors e', validate2 s v path errors = .ok e' →
        ∀ k, hasKey errors k = true → hasKey e' k = true) ∧
    (∀ sprops vprops path errors e', validateProps sprops vprops path errors = .ok e' →
        ∀ k, hasKey errors k = true → hasKey e' k = true) ∧
    (∀ e vs path i errors e', validateElems e vs path i errors = .ok e' →
        ∀ k, hasKey errors k = true → hasKey e' k = true) := by
  apply validate2.mutual_induct
      (fun s v path errors => ∀ e', validate2 s v path errors = .ok e' →
        ∀ k, hasKey errors k = true → hasKey e' k = true)
      (fun sprops vprops path errors => ∀ e',
        validateProps sprops vprops path errors = .ok e' →
        ∀ k, hasKey errors k = true → hasKey e' k = true)
      (fun e vs path i errors => ∀ e',
        validateElems e vs path i errors = .ok e' →
        ∀ k, hasKey errors k = true → hasKey e' k = true)
  case _ =>
    intro f v path errors e' h k hk
    simp only [validate2] at h
    cases hf : f v with
    | error msg => rw [hf] at h; exact absurd h (by simp [Bind.bind, Except.bind])
    | ok r =>
        rw [hf] at h
        simp only [Bind.bind, Except.bind] at h
        exact merge_result_mono errors path r e' h k hk
  case _ =>
    intro test path errors s hs e' h k hk
    simp only [validate2, hs, if_true] at h
    cases h
    exact hk
  case _ =>
    intro test path errors s hs e' h k hk
    simp only [validate2, if_neg hs, pure, Except.pure, Except.ok.injEq] at h
    rw [← h, hasKey_setKey, hk]
    rfl
  case _ =>
    intro test v path errors hv e' h k hk
    cases v with
    | str s => exact absurd rfl (hv s)
    | _ =>
        simp only [validate2, pure, Except.pure, Except.ok.injEq] at h
        rw [← h, hasKey_setKey, hk]
        rfl
  case _ =>
    intro l v path errors hl e' h k hk
    simp only [validate2, hl, if_true] at h
    cases h
    exact hk
  case _ =>
    intro l v path errors hl e' h k hk
    simp only [validate2, if_neg hl, pure, Except.pure, Except.ok.injEq] at h
    rw [← h, hasKey_setKey, hk]
    rfl
  case _ =>
    intro path errors elems e' h k hk
    simp only [validate2] at h
    exact Except.noConfusion h
  case _ =>
    intro path errors elems e rest hlen e' h k hk
    simp only [validate2, if_pos hlen] at h
    exact Except.noConfusion h
  case _ =>
    intro path errors elems e rest hlen ih e' h k hk
    simp only [validate2, if_neg hlen, Bind.bind, Except.bind] at h
    cases hmn : getBound path rest[0]? 0 with
    | error msg => rw [hmn] at h; exact absurd h (by simp)
    | ok mn =>
        rw [hmn] at h
        cases hmx : getBound path rest[1]? MAX_SAFE_INTEGER with
        | error msg => rw [hmx] at h; exact absurd h (by simp)
        | ok mx =>
            rw [hmx] at h
            have := ih mn mx e' h k
            split at this
            · exact this (by rw [hasKey_setKey, hk]; rfl)
            · exact this hk
  case _ =>
    intro elems v path errors hv e' h k hk
    cases v with
    | arr vs => exact absurd rfl (hv vs)
    | _ =>
        simp only [validate2, pure, Except.pure, Except.ok.injEq] at h
        rw [← h, hasKey_setKey, hk]
        rfl
  case _ =>
    intro props path errors vprops p hfind e' h k hk
    simp only [validate2, hfind, pure, Except.pure, Except.ok.injEq] at h
    rw [← h, hasKey_setKey, hk]
    rfl
  case _ =>
    intro props path errors vprops hfind ih e' h k hk
    simp only [validate2, hfind] at h
    exact ih e' h k hk
  case _ =>
    intro props v path errors hv e' h k hk
    cases v with
    | obj vprops => exact absurd rfl (hv vprops)
    | _ =>
        simp only [validate2, pure, Except.pure, Except.ok.injEq] at h
        rw [← h, hasKey_setKey, hk]
        rfl
  case _ =>
    intro v path errors e' h k hk
    simp only [validate2] at h
    exact Except.noConfusion h
  case _ =>
    intro vprops path errors e' h k hk
    simp only [validateProps] at h
    cases h
    exact hk
  case _ =>
    intro prop sub sprops vprops path errors subpath hnone ih e' h k hk
    simp only [validateProps, hnone] at h
    exact ih e' h k (by rw [hasKey_setKey, hk]; rfl)
  case _ =>
    intro prop sub sprops vprops path errors subpath hundef ih e' h k hk
    simp only [validateProps, hundef] at h
    exact ih e' h k (by rw [hasKey_setKey, hk]; rfl)
  case _ =>
    intro prop sub sprops vprops path errors subpath w hw hlook ih1 ih2 e' h k hk
    simp only [validateProps, hlook, Bind.bind, Except.bind] at h
    rcases hw2 : validate2 sub w (path ++ "." ++ prop) errors with msg | e1
    · rw [hw2] at h
      cases w <;> simp_all
    · rw [hw2] at h
      cases w with
      | undef => exact absurd rfl hw
      | _ =>
          simp only at h
          exact ih2 e1 e' h k (ih1 e1 hw2 k hk)
  case _ =>
    intro e path i errors e' h k hk
    simp only [validateElems] at h
    cases h
    exact hk
  case _ =>
    intro e v vs path i errors ih1 ih2 e' h k hk
    simp only [validateElems, Bind.bind, Except.bind] at h
    cases hv : validate2 e v (path ++ "[" ++ toString i ++ "]") errors with
    | error msg => rw [hv] at h; exact absurd h (by simp)
    | ok e1 =>
        rw [hv] at h
        exact ih2 e1 e' h k (ih1 e1 hv k hk)

/-! ### Claims -/

/-- Claim C1: for every schema and value, `validateJSON` returns `true`
exactly when the internally accumulated ErrorMap has zero entries, and
when it instead returns the ErrorMap, that map has at least one entry —
the top-level call never returns an empty ErrorMap. -/
theorem C1_top_level_never_empty (s : Schema) (v : JSValue) :
    (∀ m, validateJSON s v = .ok (.failure m) → m ≠ []) ∧
    (validateJSON s v = .ok .success ↔ validate2 s v "" [] = .ok []) := by
  cases h : validate2 s v "" [] with
  | error msg =>
      constructor
      · intro m hm
        simp [validateJSON, h, Bind.bind, Except.bind] at hm
      · simp [validateJSON, h, Bind.bind, Except.bind]
  | ok errs =>
      by_cases he : errs = []
      · subst he
        constructor
        · intro m hm
          simp [validateJSON, h, Bind.bind, Except.bind, object_has_a_property,
            pure, Except.pure] at hm
        · simp [validateJSON, h, Bind.bind, Except.bind, object_has_a_property,
            pure, Except.pure]
      · constructor
        · intro m hm
          simp [validateJSON, h, Bind.bind, Except.bind, object_has_a_property,
            List.isEmpty_iff, he, pure, Except.pure] at hm
          exact hm ▸ he
        · simp [validateJSON, h, Bind.bind, Except.bind, object_has_a_property,
            List.isEmpty_iff, he, pure, Except.pure]

/-- Witness for C1 at a concrete failing input: the literal schema
`null` against the value `true`. -/
theorem C1_witness : ([("", "")] : ErrorMap) ≠ [] :=
  (C1_top_level_never_empty (.lit .null) (.bool true)).1 [("", "")] (by
    simp only [validateJSON, validate2, litMatches, setKey, debugMsg, DEBUG,
      object_has_a_property, bind, Except.bind, pure, Except.pure]
    rfl)

/-- Claim C3 counterexample: a plain-array schema of length 0 does not
make `validateJSON` raise for *every* value — against the non-array
value `null` the engine records a value-level "Expected array" error at
the top path and returns that ErrorMap, never reaching the length
check. -/
theorem C3_counterexample :
    validateJSON (.arrEx []) .null = .ok (.failure [("", "")]) := by
  simp only [validateJSON, validate2, setKey, debugMsg, DEBUG, object_has_a_property,
    bind, Except.bind, pure, Except.pure]
  rfl

/-- Claim C3 (amended): for a plain-array schema whose length is 0 or
greater than 3, the engine raises a configuration error identifying the
offending path as soon as the value is an array; when the value is not
an array, the malformed length is never examined and an ordinary
"expected array" mismatch is recorded at the current path instead. -/
theorem C3_amended (elems : List Schema) (h : elems.length = 0 ∨ elems.length > 3) :
    (∀ vs path errors, validate2 (.arrEx elems) (.arr vs) path errors =
        .error ("Invalid schema at path " ++ path ++ ": arrays must be of length 1 to 3")) ∧
    (∀ vs, validateJSON (.arrEx elems) (.arr vs) =
        .error ("Invalid schema at path " ++ "" ++ ": arrays must be of length 1 to 3")) ∧
    (∀ v path errors, array v = false →
        validate2 (.arrEx elems) v path errors = .ok (setKey errors path "")) := by
  have hthrow : ∀ vs path errors, validate2 (.arrEx elems) (.arr vs) path errors =
      .error ("Invalid schema at path " ++ path ++ ": arrays must be of length 1 to 3") := by
    intro vs path errors
    match elems, h with
    | [], _ =>
        simp only [validate2]
        rfl
    | e :: rest, h =>
        have hlen : rest.length > 2 := by
          rcases h with h0 | h3
          · simp at h0
          · simp only [List.length_cons] at h3
            omega
        simp only [validate2, if_pos hlen]
        rfl
  refine ⟨hthrow, ?_, ?_⟩
  · intro vs
    simp [validateJSON, hthrow vs "" [], Bind.bind, Except.bind]
  · intro v path errors hv
    cases v with
    | arr vs => simp [array] at hv
    | undef => simp [validate2, debugMsg, DEBUG, pure, Except.pure]
    | null => simp [validate2, debugMsg, DEBUG, pure, Except.pure]
    | bool b => simp [validate2, debugMsg, DEBUG, pure, Except.pure]
    | num n => simp [validate2, debugMsg, DEBUG, pure, Except.pure]
    | str s => simp [validate2, debugMsg, DEBUG, pure, Except.pure]
    | obj props => simp [validate2, debugMsg, DEBUG, pure, Except.pure]

/-- Witness for C3 at concrete inputs: the empty array schema raises on
an array value and records a mismatch on a boolean value. -/
theorem C3_witness :
    validate2 (.arrEx []) (.arr []) "" [] =
      .error ("Invalid schema at path " ++ "" ++ ": arrays must be of length 1 to 3") ∧
    validate2 (.arrEx []) (.bool true) "p" [] = .ok (setKey [] "p" "") :=
  ⟨(C3_amended [] (Or.inl rfl)).1 [] "" [],
   (C3_amended [] (Or.inl rfl)).2.2 (.bool true) "p" [] rfl⟩

/-- Claim C7 counterexample: `integer` is `Number.isInteger`, not
`Number.isSafeInteger`: it accepts `9007199254740992 = 2^53`, which
exceeds the claimed bound `2^53 - 1`. -/
theorem C7_counterexample :
    integer (.num (.finite 9007199254740992)) = true ∧
    ¬((9007199254740992 : ℚ) ≤ 2 ^ 53 - 1) := by
  constructor
  · simp [integer, Rat.den_ofNat]
  · norm_num

/-- Claim C7 (amended): `number` rejects NaN and the infinities and
holds exactly for finite numbers; `integer` holds exactly for finite
numbers whose value is a mathematical integer (with no safe-integer
bound). -/
theorem C7_amended :
    (number (.num .nan) = false ∧ number (.num .posInf) = false ∧
      number (.num .negInf) = false) ∧
    (∀ v, number v = true ↔ ∃ q, v = .num (.finite q)) ∧
    (∀ v, integer v = true ↔ ∃ q, v = .num (.finite q) ∧ q.den = 1) := by
  refine ⟨⟨rfl, rfl, rfl⟩, ?_, ?_⟩
  · intro v
    cases v with
    | num n => cases n <;> simp [number]
    | _ => simp [number]
  · intro v
    cases v with
    | num n => cases n <;> simp [integer]
    | _ => simp [integer]

/-- In the second pass over the declared properties, a declared property
that is absent from the value (or present as `undefined`) contributes a
"missing property" entry that survives to the end of a successful run. -/
theorem validateProps_missing_hasKey (sprops : List (String × Schema))
    (vprops : List (String × JSValue)) (path : String) (errors e' : ErrorMap)
    (prop : String) (sub : Schema) (hmem : (prop, sub) ∈ sprops)
    (hmiss : lookupProp vprops prop = none ∨ lookupProp vprops prop = some .undef)
    (h : validateProps sprops vprops path errors = .ok e') :
    hasKey e' (path ++ "." ++ prop) = true := by
  induction sprops generalizing errors with
  | nil => cases hmem
  | cons hd tl ih =>
      obtain ⟨p0, s0⟩ := hd
      by_cases hp : p0 = prop
      · subst hp
        rcases hmiss with hm | hm
        · simp only [validateProps, hm] at h
          exact validate2_mono.2.1 tl vprops path _ e' h (path ++ "." ++ p0)
            (by rw [hasKey_setKey]; simp)
        · simp only [validateProps, hm] at h
          exact validate2_mono.2.1 tl vprops path _ e' h (path ++ "." ++ p0)
            (by rw [hasKey_setKey]; simp)
      · have hmem' : (prop, sub) ∈ tl := by
          rcases List.mem_cons.mp hmem with he | ht
          · exact absurd (congrArg Prod.fst he).symm hp
          · exact ht
        cases hl : lookupProp vprops p0 with
        | none =>
            simp only [validateProps, hl] at h
            exact ih _ hmem' h
        | some w =>
            cases w with
            | undef =>
                simp only [validateProps, hl] at h
                exact ih _ hmem' h
            | _ =>
                simp only [validateProps, hl, Bind.bind, Except.bind] at h
                revert h
                cases hv : validate2 s0 _ (path ++ "." ++ p0) errors with
                | error msg => intro h; exact absurd h (by simp)
                | ok e1 => intro h; exact ih _ hmem' h

/-- Claim C2: for an object-by-example schema against a plain-object
value: an undeclared property aborts the node with a single error at the
parent path; a declared property that is absent or `undefined` yields a
"missing property" entry at `path + "." + prop` without recursing into
its sub-schema, while any other declared property is validated
recursively at that sub-path.  The two spec examples are checked
verbatim: `{a: string, b: number}` against `{a:'', b:1, c:0}` fails at
path `""`, and against `{a:''}` fails at path `".b"`. -/
theorem C2_object_by_example :
    (∀ sprops vprops path errors p,
        vprops.find? (fun q => !hasProp sprops q.1) = some p →
        validate2 (.objEx sprops) (.obj vprops) path errors = .ok (setKey errors path "")) ∧
    (∀ (prop : String) (sub : Schema) sprops vprops path errors,
        (lookupProp vprops prop = none ∨ lookupProp vprops prop = some .undef) →
        validateProps ((prop, sub) :: sprops) vprops path errors =
          validateProps sprops vprops path (setKey errors (path ++ "." ++ prop) "")) ∧
    (∀ (prop : String) (sub : Schema) sprops vprops path errors w,
        lookupProp vprops prop = some w → w ≠ .undef →
        validateProps ((prop, sub) :: sprops) vprops path errors = do
          let errors ← validate2 sub w (path ++ "." ++ prop) errors
          validateProps sprops vprops path errors) ∧
    (∀ sprops vprops path errors e' (prop : String) (sub : Schema),
        (∀ q ∈ vprops, hasProp sprops q.1 = true) →
        validate2 (.objEx sprops) (.obj vprops) path errors = .ok e' →
        (prop, sub) ∈ sprops →
        (lookupProp vprops prop = none ∨ lookupProp vprops prop = some .undef) →
        hasKey e' (path ++ "." ++ prop) = true) ∧
    (validateJSON (.objEx [("a", stringSchema), ("b", numberSchema)])
        (.obj [("a", .str ""), ("b", .num (.finite 1)), ("c", .num (.finite 0))]) =
      .ok (.failure [("", "")])) ∧
    (validateJSON (.objEx [("a", stringSchema), ("b", numberSchema)])
        (.obj [("a", .str "")]) = .ok (.failure [(".b", "")])) := by
  refine ⟨?_, ?_, ?_, ?_, ?_, ?_⟩
  · intro sprops vprops path errors p hfind
    simp only [validate2, hfind, debugMsg, DEBUG, if_false]
    rfl
  · intro prop sub sprops vprops path errors hmiss
    rcases hmiss with hm | hm <;>
      (simp only [validateProps, hm]; rfl)
  · intro prop sub sprops vprops path errors w hl hw
    cases w with
    | undef => exact absurd rfl hw
    | _ => simp only [validateProps, hl]
  · intro sprops vprops path errors e' prop sub hall h hmem hmiss
    have hfind : vprops.find? (fun q => !hasProp sprops q.1) = none := by
      rw [List.find?_eq_none]
      intro q hq
      simp [hall q hq]
    simp only [validate2, hfind] at h
    exact validateProps_missing_hasKey sprops vprops path errors e' prop sub hmem hmiss h
  · simp only [validateJSON, validate2, validateProps, stringSchema, numberSchema,
      hasProp, lookupProp, List.lookup, merge_result, string, number, setKey, debugMsg,
      DEBUG, object_has_a_property, bind, Except.bind, pure, Except.pure]
    rfl
  · simp only [validateJSON, validate2, validateProps, stringSchema, numberSchema,
      hasProp, lookupProp, List.lookup, merge_result, string, number, setKey, debugMsg,
      DEBUG, object_has_a_property, bind, Except.bind, pure, Except.pure]
    rfl

/-- Witness for C2 at concrete inputs: the schema `{a: string}` against
`{b: 0}` (unexpected property, error at the parent path) and against
`{}` (missing property, error at `.a`). -/
theorem C2_witness :
    validate2 (.objEx [("a", stringSchema)]) (.obj [("b", .num (.finite 0))]) "" [] =
      .ok (setKey [] "" "") ∧
    hasKey [(".a", "")] ("" ++ "." ++ "a") = true :=
  ⟨(C2_object_by_example).1 [("a", stringSchema)] [("b", .num (.finite 0))] "" []
      ("b", .num (.finite 0)) (by simp [hasProp]),
   (C2_object_by_example).2.2.2.1 [("a", stringSchema)] [] "" [] [(".a", "")] "a"
      stringSchema (by simp) (by
        simp only [validate2, validateProps, lookupProp, List.lookup, setKey, debugMsg,
          DEBUG, hasKey, List.find?]
        rfl)
      (by simp) (Or.inl rfl)⟩

/-- Claim C4: for an array-by-example schema whose bounds the value's
length violates, a single length-mismatch error is recorded at the
current path and the engine still recurses into every element at
`path + "[i]"`; the length error survives into a successful result, so
length and element errors may coexist (checked on the concrete run
`[integer, 2, 2]` against `[1, 'x', 3]`). -/
theorem C4_array_length_nonaborting :
    (∀ e vs path errors,
        ((vs.length : ℚ) < 0 ∨ (vs.length : ℚ) > MAX_SAFE_INTEGER) →
        validate2 (.arrEx [e]) (.arr vs) path errors =
          validateElems e vs path 0 (setKey errors path "")) ∧
    (∀ e mn vs path errors, mn.den = 1 → ¬mn < 0 →
        ((vs.length : ℚ) < mn ∨ (vs.length : ℚ) > MAX_SAFE_INTEGER) →
        validate2 (.arrEx [e, .lit (.num mn)]) (.arr vs) path errors =
          validateElems e vs path 0 (setKey errors path "")) ∧
    (∀ e mn mx vs path errors, mn.den = 1 → ¬mn < 0 → mx.den = 1 → ¬mx < 0 →
        ((vs.length : ℚ) < mn ∨ (vs.length : ℚ) > mx) →
        validate2 (.arrEx [e, .lit (.num mn), .lit (.num mx)]) (.arr vs) path errors =
          validateElems e vs path 0 (setKey errors path "")) ∧
    (∀ e mn mx vs path errors e', mn.den = 1 → ¬mn < 0 → mx.den = 1 → ¬mx < 0 →
        ((vs.length : ℚ) < mn ∨ (vs.length : ℚ) > mx) →
        validate2 (.arrEx [e, .lit (.num mn), .lit (.num mx)]) (.arr vs) path errors = .ok e' →
        hasKey e' path = true) ∧
    (validateJSON (.arrEx [integerSchema, .lit (.num 2), .lit (.num 2)])
        (.arr [.num (.finite 1), .str "x", .num (.finite 3)]) =
      .ok (.failure [("", ""), ("[1]", "")])) := by
  have h1 : ∀ e vs path errors,
      ((vs.length : ℚ) < 0 ∨ (vs.length : ℚ) > MAX_SAFE_INTEGER) →
      validate2 (.arrEx [e]) (.arr vs) path errors =
        validateElems e vs path 0 (setKey errors path "") := by
    intro e vs path errors hlen
    simp only [validate2, getBound, List.length_nil, Bind.bind, Except.bind,
      debugMsg, DEBUG]
    rw [if_neg (by simp)]
    simp only [List.getElem?_nil, getBound, pure, Except.pure]
    rw [if_pos hlen]
    rfl
  have h2 : ∀ e mn vs path errors, mn.den = 1 → ¬mn < 0 →
      ((vs.length : ℚ) < mn ∨ (vs.length : ℚ) > MAX_SAFE_INTEGER) →
      validate2 (.arrEx [e, .lit (.num mn)]) (.arr vs) path errors =
        validateElems e vs path 0 (setKey errors path "") := by
    intro e mn vs path errors hd hn hlen
    simp only [validate2, Bind.bind, Except.bind, debugMsg, DEBUG]
    rw [if_neg (by simp)]
    simp only [List.getElem?_cons_zero, List.getElem?_cons_succ, List.getElem?_nil,
      getBound, pure, Except.pure]
    rw [if_pos ⟨hd, hn⟩]
    simp only [pure, Except.pure]
    rw [if_pos hlen]
    rfl
  have h3 : ∀ e mn mx vs path errors, mn.den = 1 → ¬mn < 0 → mx.den = 1 → ¬mx < 0 →
      ((vs.length : ℚ) < mn ∨ (vs.length : ℚ) > mx) →
      validate2 (.arrEx [e, .lit (.num mn), .lit (.num mx)]) (.arr vs) path errors =
        validateElems e vs path 0 (setKey errors path "") := by
    intro e mn mx vs path errors hd hn hd2 hn2 hlen
    simp only [validate2, Bind.bind, Except.bind, debugMsg, DEBUG]
    rw [if_neg (by simp)]
    simp only [List.getElem?_cons_zero, List.getElem?_cons_succ, List.getElem?_nil,
      getBound, pure, Except.pure]
    rw [if_pos ⟨hd, hn⟩]
    simp only [pure, Except.pure]
    rw [if_pos ⟨hd2, hn2⟩]
    simp only [pure, Except.pure]
    rw [if_pos hlen]
    rfl
  refine ⟨h1, h2, h3, ?_, ?_⟩
  · intro e mn mx vs path errors e' hd hn hd2 hn2 hlen h
    rw [h3 e mn mx vs path errors hd hn hd2 hn2 hlen] at h
    exact validate2_mono.2.2 e vs path 0 _ e' h path (by rw [hasKey_setKey]; simp)
  · simp only [validateJSON, validate2, validateElems, getBound, integerSchema, integer,
      merge_result, MAX_SAFE_INTEGER, setKey, debugMsg, DEBUG, object_has_a_property,
      bind, Except.bind, pure, Except.pure]
    rfl

/-- Witness for C4 at a concrete input: `[null, 1, 1]` (element schema
`null`, bounds 1..1) against the too-long array `[null, null]`. -/
theorem C4_witness :
    validate2 (.arrEx [.lit .null, .lit (.num 1), .lit (.num 1)])
        (.arr [.null, .null]) "" [] =
      validateElems (.lit .null) [.null, .null] "" 0 (setKey [] "" "") ∧
    hasKey [("", "")] "" = true :=
  ⟨(C4_array_length_nonaborting).2.2.1 (.lit .null) 1 1 [.null, .null] "" []
      (by norm_num) (by norm_num) (by norm_num) (by norm_num) (by norm_num),
   (C4_array_length_nonaborting).2.2.2.1 (.lit .null) 1 1 [.null, .null] "" [] [("", "")]
      (by norm_num) (by norm_num) (by norm_num) (by norm_num) (by norm_num)
      (by
        simp only [validate2, validateElems, getBound, litMatches, setKey, debugMsg,
          DEBUG, bind, Except.bind, pure, Except.pure]
        rfl)⟩

/-- The schema `/[0-9]+/`: `value.search` hits exactly when the string
contains a digit. -/
def digitRegex : Schema := .regex (fun s => s.data.any Char.isDigit)

/-- If every key in the list validates to `true` against the key schema,
the key-checking loop of `map` reports success. -/
theorem mapCheckKeys_all_ok (ks : Schema) (keys : List String)
    (h : ∀ k ∈ keys, validateJSON ks (.str k) = .ok .success) :
    mapCheckKeys ks keys = .ok true := by
  induction keys with
  | nil => rfl
  | cons k rest ih =>
      simp only [mapCheckKeys, Bind.bind, Except.bind, h k (by simp)]
      exact ih fun k' hk' => h k' (by simp [hk'])

/-- The key-checking loop of `map` aborts with `false` at the first key
that does not validate to `true`, whatever comes after it. -/
theorem mapCheckKeys_abort (ks : Schema) (front back : List String) (k : String)
    (m : ErrorMap)
    (hfront : ∀ k' ∈ front, validateJSON ks (.str k') = .ok .success)
    (hk : validateJSON ks (.str k) = .ok (.failure m)) :
    mapCheckKeys ks (front ++ k :: back) = .ok false := by
  induction front with
  | nil =>
      simp only [List.nil_append, mapCheckKeys, Bind.bind, Except.bind, hk]
      rfl
  | cons f rest ih =>
      simp only [List.cons_append, mapCheckKeys, Bind.bind, Except.bind,
        hfront f (by simp)]
      exact ih fun k' h' => hfront k' (by simp [h'])

/-- Claim C5: the validator built by `map` validates every key through a
full top-level `validateJSON` run of the key schema first, and aborts
with a single error at the current path at the first failing key,
before any value is inspected (the value schema below is the
always-raising `other`, so reaching the value phase would raise); when
every key passes, the result is always a value-phase ErrorMap.  The
spec's example `map(/[0-9]+/, integer)` against `{a: "", 2: 2}` yields
exactly one error at path `""`, and value errors appear at `"." + key`
with the entry count checked against the bounds. -/
theorem C5_map_key_phase_abort :
    (∀ ks vsch minE maxE front back (k : String) (w : JSValue) m,
        (∀ k' ∈ front.map Prod.fst, validateJSON ks (.str k') = .ok .success) →
        validateJSON ks (.str k) = .ok (.failure m) →
        JsonValidate.map ks vsch minE maxE (.obj (front ++ (k, w) :: back)) =
          .ok (.str "")) ∧
    (∀ ks vsch minE maxE props r,
        (∀ p ∈ props, validateJSON ks (.str p.1) = .ok .success) →
        JsonValidate.map ks vsch minE maxE (.obj props) = .ok r →
        ∃ errs, r = .errs errs) ∧
    (validateJSON (.func (JsonValidate.map digitRegex integerSchema 0 MAX_SAFE_INTEGER))
        (.obj [("2", .num (.finite 2)), ("a", .str "")]) = .ok (.failure [("", "")])) ∧
    (validateJSON (.func (JsonValidate.map digitRegex integerSchema 1 2))
        (.obj [("1", .str "")]) = .ok (.failure [(".1", "")])) ∧
    (validateJSON (.func (JsonValidate.map digitRegex integerSchema 1 2)) (.obj []) =
      .ok (.failure [("", "")])) := by
  refine ⟨?_, ?_, ?_, ?_, ?_⟩
  · intro ks vsch minE maxE front back k w m hfront hk
    have habort : mapCheckKeys ks ((front ++ (k, w) :: back).map Prod.fst) = .ok false := by
      rw [List.map_append, List.map_cons]
      exact mapCheckKeys_abort ks (front.map Prod.fst) (back.map Prod.fst) k m hfront hk
    simp only [map, habort, Bind.bind, Except.bind, debugMsg, DEBUG]
    rfl
  · intro ks vsch minE maxE props r hall h
    have hok : mapCheckKeys ks (props.map Prod.fst) = .ok true :=
      mapCheckKeys_all_ok ks _ (by
        intro k hk
        rcases List.mem_map.mp hk with ⟨p, hp, hpk⟩
        exact hpk ▸ hall p hp)
    simp only [map, hok, Bind.bind, Except.bind] at h
    revert h
    cases hv : mapValues vsch props [] 0 with
    | error msg => intro h; exact absurd h (by simp)
    | ok pair =>
        intro h
        simp only [if_true, pure, Except.pure, Except.ok.injEq] at h
        exact ⟨_, h.symm⟩
  · simp only [validateJSON, validate2, map, mapCheckKeys, mapValues, digitRegex,
      integerSchema, integer, merge_result, setKey, debugMsg, DEBUG,
      object_has_a_property, MAX_SAFE_INTEGER, bind, Except.bind, pure, Except.pure]
    rfl
  · simp only [validateJSON, validate2, map, mapCheckKeys, mapValues, digitRegex,
      integerSchema, integer, merge_result, setKey, debugMsg, DEBUG,
      object_has_a_property, bind, Except.bind, pure, Except.pure]
    rfl
  · simp only [validateJSON, validate2, map, mapCheckKeys, mapValues, digitRegex,
      integerSchema, integer, merge_result, setKey, debugMsg, DEBUG,
      object_has_a_property, bind, Except.bind, pure, Except.pure]
    rfl

/-- Witness for C5 at a concrete input: the value schema is the
always-raising `other` shape, so the single-error abort on key `"a"`
demonstrates that no value is ever inspected. -/
theorem C5_witness :
    JsonValidate.map digitRegex .other 0 0
        (.obj [("2", .num (.finite 2)), ("a", .str "")]) = .ok (.str "") :=
  (C5_map_key_phase_abort).1 digitRegex .other 0 0 [("2", .num (.finite 2))] []
    "a" (.str "") [("", "")]
    (by
      intro k' hk'
      simp only [List.map_cons, List.map_nil, List.mem_singleton] at hk'
      subst hk'
      simp only [validateJSON, validate2, digitRegex, object_has_a_property,
        bind, Except.bind, pure, Except.pure]
      rfl)
    (by
      simp only [validateJSON, validate2, digitRegex, setKey, debugMsg, DEBUG,
        object_has_a_property, bind, Except.bind, pure, Except.pure]
      rfl)

/-- Claim C6: the validator built by `and` evaluates the schemas in
order through the top-level entry point, returns the first non-`true`
result verbatim — the trailing schemas (universally quantified below,
so never consulted) do not affect the result — and returns `true` when
every schema passes; `and` itself rejects an empty list at construction
time and otherwise returns exactly this loop. -/
theorem C6_and_short_circuit :
    (∀ front s back v m,
        (∀ s' ∈ front, validateJSON s' v = .ok .success) →
        validateJSON s v = .ok (.failure m) →
        andRun (front ++ s :: back) v = .ok (.errs m)) ∧
    (∀ schemata v,
        (∀ s ∈ schemata, validateJSON s v = .ok .success) →
        andRun schemata v = .ok (.bool true)) ∧
    (∀ schemata, schemata ≠ [] →
        and schemata = .ok (fun v => andRun schemata v)) := by
  refine ⟨?_, ?_, ?_⟩
  · intro front s back v m hfront hs
    induction front with
    | nil =>
        simp only [List.nil_append, andRun, Bind.bind, Except.bind, hs]
        rfl
    | cons f rest ih =>
        simp only [List.cons_append, andRun, Bind.bind, Except.bind,
          hfront f (by simp)]
        exact ih fun s' h' => hfront s' (by simp [h'])
  · intro schemata v hall
    induction schemata with
    | nil => rfl
    | cons s rest ih =>
        simp only [andRun, Bind.bind, Except.bind, hall s (by simp)]
        exact ih fun s' h' => hall s' (by simp [h'])
  · intro schemata hne
    rw [and, if_neg (by simpa using fun h => hne (List.length_eq_zero.mp h))]
    rfl

/-- Witness for C6 at a concrete input: `and(string, null, other)`
against `""` fails on the `null` literal and returns its ErrorMap
verbatim, never reaching the always-raising `other` schema. -/
theorem C6_witness :
    andRun [stringSchema, .lit .null, .other] (.str "") = .ok (.errs [("", "")]) :=
  (C6_and_short_circuit).1 [stringSchema] (.lit .null) [.other] (.str "") [("", "")]
    (by
      intro s' hs'
      simp only [List.mem_singleton] at hs'
      subst hs'
      simp only [validateJSON, validate2, stringSchema, string, merge_result,
        object_has_a_property, bind, Except.bind, pure, Except.pure]
      rfl)
    (by
      simp only [validateJSON, validate2, litMatches, setKey, debugMsg, DEBUG,
        object_has_a_property, bind, Except.bind, pure, Except.pure]
      rfl)

/-- Claim C8: in the validator built by `object`, a required property
present with value `undefined` is treated as missing (error at
`"." + prop`, no recursion — the equation below does not consult the
sub-schema), but an optional property present with value `undefined` is
counted toward the optional-property count and validated against its
sub-schema.  Checked concretely: required `{a: null}` against
`{a: undefined}` errors at `.a`; optional `{b: null}` with bounds 1..∞
against `{b: undefined}` errors at `.b` only (the count of 1 satisfies
the bound), while against `{}` the count of 0 violates the bound and
errors at `""`. -/
theorem C8_object_undefined_properties :
    (∀ (prop : String) (sub : Schema) rest vprops errors,
        lookupProp vprops prop = some .undef →
        objReq ((prop, sub) :: rest) vprops errors =
          objReq rest vprops (setKey errors ("." ++ prop) "")) ∧
    (∀ (prop : String) (sub : Schema) rest vprops errors count,
        lookupProp vprops prop = some .undef →
        objOpt ((prop, sub) :: rest) vprops errors count = do
          let errors ← validate2 sub .undef ("." ++ prop) errors
          objOpt rest vprops errors (count + 1)) ∧
    (objectClosure [("a", .lit .null)] (some []) 0 MAX_SAFE_INTEGER
        (.obj [("a", .undef)]) = .ok (.errs [(".a", "")])) ∧
    (objectClosure [] (some [("b", .lit .null)]) 1 MAX_SAFE_INTEGER
        (.obj [("b", .undef)]) = .ok (.errs [(".b", "")])) ∧
    (objectClosure [] (some [("b", .lit .null)]) 1 MAX_SAFE_INTEGER
        (.obj []) = .ok (.errs [("", "")])) := by
  refine ⟨?_, ?_, ?_, ?_, ?_⟩
  · intro prop sub rest vprops errors h
    simp only [objReq, h]
    rfl
  · intro prop sub rest vprops errors count h
    simp only [objOpt, h]
  · simp only [objectClosure, objReq, objOpt, validate2, litMatches, hasProp,
      lookupProp, List.lookup, setKey, debugMsg, DEBUG, MAX_SAFE_INTEGER,
      bind, Except.bind, pure, Except.pure, List.find?]
    rfl
  · simp only [objectClosure, objReq, objOpt, validate2, litMatches, hasProp,
      lookupProp, List.lookup, setKey, debugMsg, DEBUG, MAX_SAFE_INTEGER,
      bind, Except.bind, pure, Except.pure, List.find?]
    rfl
  · simp only [objectClosure, objReq, objOpt, validate2, litMatches, hasProp,
      lookupProp, List.lookup, setKey, debugMsg, DEBUG, MAX_SAFE_INTEGER,
      bind, Except.bind, pure, Except.pure, List.find?]
    rfl

/-- Witness for C8 at a concrete input: a required and an optional
property, both present as `undefined`. -/
theorem C8_witness :
    objReq [("a", .lit .null)] [("a", JSValue.undef)] [] =
      objReq [] [("a", JSValue.undef)] (setKey [] ("." ++ "a") "") ∧
    objOpt [("b", .lit .null)] [("b", JSValue.undef)] [] 0 = (do
      let errors ← validate2 (.lit .null) .undef ("." ++ "b") []
      objOpt [] [("b", JSValue.undef)] errors (0 + 1)) :=
  ⟨(C8_object_undefined_properties).1 "a" (.lit .null) [] [("a", JSValue.undef)] [] rfl,
   (C8_object_undefined_properties).2.1 "b" (.lit .null) [] [("b", JSValue.undef)] [] 0 rfl⟩

/-- Claim C9: a multi-argument `object` (or `plain_object`) call raises
`Invalid schema` at construction time whenever the optional-properties
argument is `null` or `undefined` (the destructuring default turns
`undefined` into `null`, and `is_plain_object(null)` is false); every
validator it does return was built with an actual property mapping, so
the closure's `optional_properties === null` branch is unreachable. -/
theorem C9_object_null_optional :
    (∀ req minOpt maxOpt,
        object_build req .null minOpt maxOpt = .error "Invalid schema") ∧
    (∀ req minOpt maxOpt,
        object_build req .undef minOpt maxOpt = .error "Invalid schema") ∧
    (∀ req minOpt maxOpt,
        plain_object_build req .null minOpt maxOpt = .error "Invalid schema") ∧
    (∀ req minOpt maxOpt,
        plain_object_build req .undef minOpt maxOpt = .error "Invalid schema") ∧
    (∀ req optArg minOpt maxOpt f,
        object_build req optArg minOpt maxOpt = .ok f →
        ∃ l, optArg = .props l ∧ f = objectClosure req (some l) minOpt maxOpt) := by
  refine ⟨fun req minOpt maxOpt => rfl, fun req minOpt maxOpt => rfl,
    fun req minOpt maxOpt => rfl, fun req minOpt maxOpt => rfl, ?_⟩
  intro req optArg minOpt maxOpt f h
  cases optArg with
  | undef => exact absurd h (by simp [object_build, normalizeOptArg, throw, throwThe])
  | null => exact absurd h (by simp [object_build, normalizeOptArg, throw, throwThe])
  | props l =>
      refine ⟨l, rfl, ?_⟩
      revert h
      simp only [object_build, normalizeOptArg]
      cases hf : req.find? (fun p => hasProp l p.1) with
      | some p => intro h; exact absurd h (by simp [throw, throwThe])
      | none =>
          intro h
          simp only [pure, Except.pure, Except.ok.injEq] at h
          exact h.symm

/-- Witness for C9 at a concrete input: building `object({}, {})`
succeeds and yields exactly the closure over the given (non-null)
optional mapping. -/
theorem C9_witness :
    ∃ l, OptionalArg.props ([] : List (String × Schema)) = OptionalArg.props l ∧
      objectClosure [] (some []) (0 : ℚ) (0 : ℚ) = objectClosure [] (some l) 0 0 :=
  (C9_object_null_optional).2.2.2.2 [] (.props []) 0 0
    (objectClosure [] (some []) 0 0) rfl

/-- Claim C10: within a top-level validation call, the error
accumulator grows monotonically: every dispatch branch of the engine
(`validate2` and its two loops) and every `merge_result` call only adds
new path entries or overwrites existing ones, so any path present in
the accumulator at any point of a successful run is present in the
final ErrorMap. -/
theorem C10_accumulator_monotonic :
    (∀ s v path errors e', validate2 s v path errors = .ok e' →
        ∀ k, hasKey errors k = true → hasKey e' k = true) ∧
    (∀ errors path r e', merge_result errors path r = .ok e' →
        ∀ k, hasKey errors k = true → hasKey e' k = true) ∧
    (∀ sprops vprops path errors e', validateProps sprops vprops path errors = .ok e' →
        ∀ k, hasKey errors k = true → hasKey e' k = true) ∧
    (∀ e vs path i errors e', validateElems e vs path i errors = .ok e' →
        ∀ k, hasKey errors k = true → hasKey e' k = true) :=
  ⟨validate2_mono.1,
   fun errors path r e' h k hk => merge_result_mono errors path r e' h k hk,
   validate2_mono.2.1, validate2_mono.2.2⟩

/-- Witness for C10 at a concrete input: a pre-existing entry at path
`"x"` survives a run of the literal schema `null` against `true`, which
adds its own entry at `""`. -/
theorem C10_witness : hasKey [("x", "old"), ("", "")] "x" = true :=
  (C10_accumulator_monotonic).1 (.lit .null) (.bool true) "" [("x", "old")]
    [("x", "old"), ("", "")]
    (by
      simp only [validate2, litMatches, setKey, debugMsg, DEBUG, pure, Except.pure]
      rfl)
    "x" rfl

end JsonValidate
